import Mathlib

/-!
Verification of `src/utils/check_if_new_model_added.py`.

The script collects the Python files newly added between the merge base of
`main` and the current head, then runs the regular expression
`src/transformers/(models/.*)/modeling_.*\.py` over the collected paths to
extract a model directory, and finally prints a result.  We shallowly embed
the script: git operations (`diff`, `merge_base`, reference resolution) are
parameters of the model, the regular-expression search is implemented
character by character with Python semantics (unanchored leftmost search,
greedy `.*` that matches any character except a newline), and the printed
lines are collected into a list.
-/

namespace CheckIfNewModelAdded

/-- A commit, identified by the string git displays for it. -/
abbrev Commit := String

/-- One entry of a git diff, as used by the script: the change type
(`"A"`, `"M"`, `"D"`, ...) and the post-change path `b_path`. -/
structure DiffObj where
  change_type : String
  b_path : String
deriving Repr, DecidableEq

/-- `get_new_files` (lines 35-59 of the script): for every commit in
`commits`, iterate over `commit.diff(base_commit)` and append `b_path` of
every entry whose change type is `"A"` and whose path ends with `".py"`.
The git call `commit.diff(base_commit)` is supplied as the function
`diff`. -/
def get_new_files (diff : Commit → Commit → List DiffObj) (base_commit : Commit)
    (commits : List Commit) : List String :=
  commits.foldl
    (fun code_diff commit =>
      (diff commit base_commit).foldl
        (fun acc diff_obj =>
          if diff_obj.change_type == "A" && diff_obj.b_path.endsWith ".py" then
            acc ++ [diff_obj.b_path]
          else acc)
        code_diff)
    []

/-- The literal head of the pattern, up to and including the start of the
capture group: `src/transformers/models/`. -/
def patHead : List Char := "src/transformers/models/".data

/-- The literal part of the pattern after the capture group: `/modeling_`. -/
def patMid : List Char := "/modeling_".data

/-- The literal end of the pattern: `.py` (the escaped dot and the suffix). -/
def patTail : List Char := ".py".data

/-- Does `t` match `.*\.py` followed by anything, i.e. is there a split
`t = u ++ ".py" ++ rest` where `u` has no newline (`.` does not match a
newline in Python)? -/
def tailMatch : List Char → Bool
  | [] => false
  | c :: ts => patTail.isPrefixOf (c :: ts) || (c != '\n' && tailMatch ts)

/-- Does `t` match `/modeling_.*\.py` followed by anything? -/
def midMatch (t : List Char) : Bool :=
  patMid.isPrefixOf t && tailMatch (t.drop patMid.length)

/-- Greedy semantics of the first `.*` of the pattern: the longest `m`
containing no newline such that `t = m ++ rest` and `rest` matches
`/modeling_.*\.py`; `none` when no such split exists. -/
def greedyGroup : List Char → Option (List Char)
  | [] => if midMatch [] then some [] else none
  | c :: ts =>
    if c = '\n' then
      if midMatch (c :: ts) then some [] else none
    else
      match greedyGroup ts with
      | some m => some (c :: m)
      | none => if midMatch (c :: ts) then some [] else none

/-- Match of the whole pattern starting exactly at the head of `t`:
`some m` when `t` begins with `src/transformers/models/`, then a greedy
`m`, then `/modeling_.*\.py`. -/
def matchHere (t : List Char) : Option (List Char) :=
  if patHead.isPrefixOf t then greedyGroup (t.drop patHead.length) else none

/-- Unanchored search: try every start position from the left and keep the
leftmost full match, as Python's `findall` does for its first result. -/
def scanMatch : List Char → Option (List Char)
  | [] => matchHere []
  | c :: ts =>
    match matchHere (c :: ts) with
    | some m => some m
    | none => scanMatch ts

/-- The first element of
`re.findall(r"src/transformers/(models/.*)/modeling_.*\.py", x)`
(line 90 and 94 of the script): the capture group of the leftmost match,
`none` when `findall` returns the empty list.  The capture group starts at
`models/`, so the captured string is `"models/" ++ m` where `m` is what the
first `.*` consumed. -/
def regFindallHead (x : String) : Option String :=
  (scanMatch x.data).map (fun m => "models/" ++ String.mk m)

/-- The extraction loop of `__main__` (lines 92-98): `new_model` starts as
`""`; the loop body runs `findall` on the current file and stores the first
result when there is one, and then reaches an unconditional `break`, so
only the first file of the list is ever examined. -/
def extractNewModel (new_files : List String) : String :=
  match new_files with
  | [] => ""
  | x :: _ =>
    match regFindallHead x with
    | some g => g
    | none => ""

/-- Lines 92-100 of `__main__`: the extraction loop followed by the
unconditional reassignment `new_model = "models/bert"` on line 99; the
result is the value handed to the final `print`. -/
def mainNewModel (new_files : List String) : String :=
  let new_model := extractNewModel new_files
  let new_model := "models/bert"
  new_model

/-- The parts of the repository state that `get_new_python_files` reads:
the local reference `repo.refs.main` and the remote-tracking reference
`repo.remotes.origin.refs.main` (each `none` when accessing it raises), the
head commit, and git's `merge_base` and `diff` operations. -/
structure RepoModel where
  refs_main : Option Commit
  origin_refs_main : Option Commit
  head : Commit
  merge_base : Commit → Commit → List Commit
  diff : Commit → Commit → List DiffObj

/-- Lines 74-77 of the script:
`try: main = repo.refs.main` / `except: main = repo.remotes.origin.refs.main`.
A failure of the fallback itself is not caught and propagates. -/
def resolveMain (refs_main origin_refs_main : Option Commit) : Except Unit Commit :=
  match refs_main with
  | some m => Except.ok m
  | none =>
    match origin_refs_main with
    | some m => Except.ok m
    | none => Except.error ()

/-- `get_new_python_files` (lines 62-85): resolve the mainline reference,
print two diagnostic lines and one line per merge-base commit, and return
`get_new_files(repo.head.commit, branching_commits)`.  The model returns
the printed lines together with the returned file list, or the propagated
resolution error. -/
def get_new_python_files (repo : RepoModel) :
    Except Unit (List String × List String) :=
  match resolveMain repo.refs_main repo.origin_refs_main with
  | Except.error e => Except.error e
  | Except.ok main =>
    let branching_commits := repo.merge_base main repo.head
    Except.ok
      (["main is at " ++ main, "Current head is at " ++ repo.head] ++
          branching_commits.map (fun commit => "Branching commit: " ++ commit),
        get_new_files repo.diff repo.head branching_commits)

/-- The whole run of the script (lines 88-100): everything printed to
standard output in order, or the propagated error when reference
resolution fails. -/
def scriptOutput (repo : RepoModel) : Except Unit (List String) :=
  match get_new_python_files repo with
  | Except.error e => Except.error e
  | Except.ok (lines, new_files) => Except.ok (lines ++ [mainNewModel new_files])

/-- A repository whose local `main` resolves and whose diffs are empty. -/
def repo0 : RepoModel :=
  ⟨some "m0", none, "h0", fun _ _ => [], fun _ _ => []⟩

/-- A repository with one merge-base commit whose diff against head adds
one modeling file and modifies one non-Python file. -/
def repo1 : RepoModel :=
  ⟨some "m1", none, "h1", fun _ _ => ["b1"],
    fun _ _ =>
      [⟨"A", "src/transformers/models/gemma/modeling_gemma.py"⟩,
       ⟨"M", "README.md"⟩]⟩

/-- A repository where both the local `main` and the remote-tracking
`origin/main` fail to resolve. -/
def repoNone : RepoModel :=
  ⟨none, none, "h0", fun _ _ => [], fun _ _ => []⟩

/-- The inner loop of `get_new_files`: folding the conditional append over a
diff equals appending the filtered, projected diff to the accumulator. -/
theorem foldl_diff_filter (l : List DiffObj) (acc : List String) :
    l.foldl
        (fun acc diff_obj =>
          if diff_obj.change_type == "A" && diff_obj.b_path.endsWith ".py" then
            acc ++ [diff_obj.b_path]
          else acc)
        acc
      = acc ++
        (l.filter
          (fun d => d.change_type == "A" && d.b_path.endsWith ".py")).map
          (fun d => d.b_path) := by
  induction l generalizing acc with
  | nil => simp
  | cons d l ih =>
    by_cases h : (d.change_type == "A" && d.b_path.endsWith ".py") = true
    · rw [List.foldl_cons, if_pos h, ih, List.filter_cons, if_pos h,
        List.map_cons, List.append_assoc]
      rfl
    · rw [List.foldl_cons, if_neg h, ih, List.filter_cons, if_neg h]

/-- The outer loop of `get_new_files` with a general accumulator. -/
theorem foldl_commits_join (diff : Commit → Commit → List DiffObj)
    (base_commit : Commit) (commits : List Commit) (acc : List String) :
    commits.foldl
        (fun code_diff commit =>
          (diff commit base_commit).foldl
            (fun acc diff_obj =>
              if diff_obj.change_type == "A" && diff_obj.b_path.endsWith ".py"
                then acc ++ [diff_obj.b_path]
              else acc)
            code_diff)
        acc
      = acc ++
        (commits.map (fun commit =>
          ((diff commit base_commit).filter
            (fun d => d.change_type == "A" && d.b_path.endsWith ".py")).map
            (fun d => d.b_path))).flatten := by
  induction commits generalizing acc with
  | nil => simp
  | cons c cs ih =>
    rw [List.foldl_cons, foldl_diff_filter, ih, List.map_cons,
      List.flatten_cons, List.append_assoc]

/-- C1: for every new-file list, the value emitted on the last output line
is the fixed constant "models/bert", regardless of whether any path matched
the pattern and regardless of what was captured: `mainNewModel` is the
constant function, and on every successful run the last printed line is
"models/bert". -/
theorem c1_final_line_models_bert :
    (∀ new_files : List String, mainNewModel new_files = "models/bert") ∧
    (∀ (repo : RepoModel) (out : List String),
      scriptOutput repo = Except.ok out → out.getLast? = some "models/bert") := by
  refine ⟨fun _ => rfl, fun repo out h => ?_⟩
  unfold scriptOutput at h
  cases heq : get_new_python_files repo with
  | error e => rw [heq] at h; cases h
  | ok p =>
    rw [heq] at h
    cases h
    simp [mainNewModel]

/-- Witness for C1 at a concrete repository. -/
theorem c1_witness :
    (["main is at m0", "Current head is at h0", "models/bert"] :
      List String).getLast? = some "models/bert" :=
  c1_final_line_models_bert.2 repo0
    ["main is at m0", "Current head is at h0", "models/bert"] rfl

/-- C2 counterexample: the break at line 98 is unconditional, so with a
non-matching first file followed by a matching one the loop never reaches
the match: extraction yields `""`, not `"models/a"`, even though the second
file does match the pattern. -/
theorem c2_counterexample :
    extractNewModel ["setup.py", "src/transformers/models/a/modeling_a.py"] = "" ∧
    regFindallHead "src/transformers/models/a/modeling_a.py" = some "models/a" :=
  ⟨rfl, rfl⟩

/-- C2 (amended): the extraction loop examines only the first path of the
list: if the first path matches the pattern its first capture is taken,
otherwise the captured value stays empty; the empty list also yields the
empty string; remaining files are never examined. -/
theorem c2_amended_first_file_only (x : String) (xs : List String) :
    (∀ g, regFindallHead x = some g → extractNewModel (x :: xs) = g) ∧
    (regFindallHead x = none → extractNewModel (x :: xs) = "") ∧
    extractNewModel ([] : List String) = "" := by
  refine ⟨fun g hg => ?_, fun hn => ?_, rfl⟩
  · simp [extractNewModel, hg]
  · simp [extractNewModel, hn]

/-- Witness for the amended C2 at a concrete input. -/
theorem c2_amended_witness :
    extractNewModel ["src/transformers/models/foo/modeling_foo.py", "setup.py"]
      = "models/foo" :=
  (c2_amended_first_file_only "src/transformers/models/foo/modeling_foo.py"
    ["setup.py"]).1 "models/foo" rfl

/-- C5: for the singleton list holding
`src/transformers/models/foo/modeling_foo.py`, the extraction step (before
the overwrite of line 99) captures `models/foo`. -/
theorem c5_single_foo_extraction :
    extractNewModel ["src/transformers/models/foo/modeling_foo.py"]
      = "models/foo" := rfl

/-- C8: the pre-overwrite extraction depends only on the first element of
the list — `extractNewModel l = extractNewModel (l.take 1)` — the empty
list gives the empty string, and the tail of the list is never examined. -/
theorem c8_only_head_matters (l : List String) :
    extractNewModel l = extractNewModel (l.take 1) ∧
    extractNewModel ([] : List String) = "" ∧
    ∀ (x : String) (xs ys : List String),
      extractNewModel (x :: xs) = extractNewModel (x :: ys) := by
  refine ⟨?_, rfl, fun x xs ys => rfl⟩
  cases l <;> rfl

/-- C9: the capture group is greedy and `.` matches `/`: a nested directory
path captures all the intermediate segments, and with two `/modeling_`
occurrences the greedy `.*` extends the capture to the later one. -/
theorem c9_greedy_dot_matches_slash :
    extractNewModel ["src/transformers/models/a/b/modeling_x.py"]
      = "models/a/b" ∧
    extractNewModel ["src/transformers/models/a/modeling_b/modeling_c.py"]
      = "models/a/modeling_b" :=
  ⟨rfl, rfl⟩

/-- C10: matching is unanchored substring search: a path with a leading
extra prefix still yields a capture. -/
theorem c10_unanchored_search :
    extractNewModel ["a/src/transformers/models/foo/modeling_foo.py"]
      = "models/foo" ∧
    regFindallHead "x/y/src/transformers/models/bar/modeling_bar.py"
      = some "models/bar" :=
  ⟨rfl, rfl⟩

/-- C3: the collected new-file list is the concatenation, over all ancestor
commits in order, of the post-change paths of exactly those diff entries
against the head whose change type is "A" and whose path ends with ".py";
every commit contributes (no early exit), duplicates are kept, and the
order follows the diff iteration order. -/
theorem c3_collects_all_commits (diff : Commit → Commit → List DiffObj)
    (base_commit : Commit) (commits : List Commit) :
    get_new_files diff base_commit commits =
      (commits.map (fun commit =>
        ((diff commit base_commit).filter
          (fun d => d.change_type == "A" && d.b_path.endsWith ".py")).map
          (fun d => d.b_path))).flatten := by
  unfold get_new_files
  rw [foldl_commits_join, List.nil_append]

/-- C4: mainline resolution uses the local reference "main" whenever it
exists; only on failure does it fall back to "origin/main"; when both fail
the error propagates uncaught and the whole run aborts. -/
theorem c4_mainline_resolution (loc rem : Option Commit) :
    (∀ m, loc = some m → resolveMain loc rem = Except.ok m) ∧
    (loc = none → ∀ m, rem = some m → resolveMain loc rem = Except.ok m) ∧
    (loc = none → rem = none →
      resolveMain loc rem = Except.error () ∧
      ∀ repo : RepoModel, repo.refs_main = loc → repo.origin_refs_main = rem →
        scriptOutput repo = Except.error ()) := by
  refine ⟨fun m hm => ?_, fun h1 m h2 => ?_, fun h1 h2 => ⟨?_, fun repo hr ho => ?_⟩⟩
  · subst hm; rfl
  · subst h1; subst h2; rfl
  · subst h1; subst h2; rfl
  · subst h1; subst h2
    simp [scriptOutput, get_new_python_files, resolveMain, hr, ho]

/-- Witness for C4: all three resolution outcomes at concrete inputs. -/
theorem c4_witness :
    resolveMain (some "m0") none = Except.ok "m0" ∧
    resolveMain none (some "r0") = Except.ok "r0" ∧
    scriptOutput repoNone = Except.error () :=
  ⟨(c4_mainline_resolution (some "m0") none).1 "m0" rfl,
   (c4_mainline_resolution none (some "r0")).2.1 rfl "r0" rfl,
   ((c4_mainline_resolution none none).2.2 rfl rfl).2 repoNone rfl rfl⟩

/-- C6: when no collected file matches the pattern (including when the list
is empty), the captured value is the empty string before the overwrite, the
run is not an error, and a final output line is still emitted. -/
theorem c6_no_match_not_an_error (repo : RepoModel)
    (lines new_files : List String)
    (h1 : get_new_python_files repo = Except.ok (lines, new_files))
    (h2 : ∀ x ∈ new_files, regFindallHead x = none) :
    extractNewModel new_files = "" ∧
    scriptOutput repo = Except.ok (lines ++ [mainNewModel new_files]) ∧
    (lines ++ [mainNewModel new_files]).getLast? = some "models/bert" := by
  refine ⟨?_, ?_, ?_⟩
  · cases new_files with
    | nil => rfl
    | cons x xs =>
      have hx := h2 x (by simp)
      simp [extractNewModel, hx]
  · simp [scriptOutput, h1]
  · simp [mainNewModel]

/-- Witness for C6 at a concrete repository with no new files. -/
theorem c6_witness :
    extractNewModel ([] : List String) = "" ∧
    scriptOutput repo0 = Except.ok
      (["main is at m0", "Current head is at h0"] ++ ["models/bert"]) ∧
    ((["main is at m0", "Current head is at h0"] ++ ["models/bert"]) :
        List String).getLast? = some "models/bert" :=
  c6_no_match_not_an_error repo0 ["main is at m0", "Current head is at h0"] []
    rfl (by intro x hx; cases hx)

/-- C7: on a normal run the script prints, in order, exactly two diagnostic
lines with the mainline and head commits, then one line per merge-base
commit, then exactly one final line with the model path string:
2 + (number of merge bases) + 1 lines in total. -/
theorem c7_output_line_counts (repo : RepoModel) (m : Commit)
    (h : resolveMain repo.refs_main repo.origin_refs_main = Except.ok m) :
    ∃ out, scriptOutput repo = Except.ok out ∧
      out.length = 2 + (repo.merge_base m repo.head).length + 1 ∧
      out.take 2 = ["main is at " ++ m, "Current head is at " ++ repo.head] ∧
      out.drop 2 = (repo.merge_base m repo.head).map
          (fun commit => "Branching commit: " ++ commit) ++
        [mainNewModel
          (get_new_files repo.diff repo.head (repo.merge_base m repo.head))] := by
  have hout : scriptOutput repo = Except.ok
      ((["main is at " ++ m, "Current head is at " ++ repo.head] ++
          (repo.merge_base m repo.head).map
            (fun commit => "Branching commit: " ++ commit)) ++
        [mainNewModel
          (get_new_files repo.diff repo.head (repo.merge_base m repo.head))]) := by
    simp [scriptOutput, get_new_python_files, h]
  refine ⟨_, hout, ?_, rfl, rfl⟩
  simp [List.length_append]
  omega

/-- Witness for C7: a concrete repository with one merge base prints four
lines. -/
theorem c7_witness :
    ∃ out, scriptOutput repo1 = Except.ok out ∧ out.length = 4 := by
  obtain ⟨out, h1, h2, -, -⟩ := c7_output_line_counts repo1 "m1" rfl
  exact ⟨out, h1, by rw [h2]; rfl⟩

end CheckIfNewModelAdded
